import Mathlib

/-!
Verification development for the Kuration API CSV processor
(`kuration_api_processor.py`).

The development shallowly embeds the processor:
* JSON payloads become the inductive type `Json`, with Python's
  truthiness, `dict.get`, `str.strip` and `str()` modelled explicitly;
* the Result Extractor `extract_column_values` is translated line by
  line, with Python exceptions (`AttributeError` on a non-dict element)
  modelled as `Except.error`;
* the submit / poll / project pipeline `process_csv` is translated with
  the network abstracted into an oracle `Env` giving the server's
  response to the i-th submission and to each poll of a row id in each
  round; wall-clock budget becomes a maximum number of polling rounds.
-/

/-- A JSON value as produced by `response.json()`. -/
inductive Json where
  | null
  | bool (b : Bool)
  | num (n : Int)
  | str (s : String)
  | arr (elems : List Json)
  | obj (fields : List (String × Json))

/-- Python truthiness of a JSON value (`if x:`). -/
def Json.truthy : Json → Bool
  | .null => false
  | .bool b => b
  | .num n => decide (n ≠ 0)
  | .str s => decide (s ≠ "")
  | .arr l => !l.isEmpty
  | .obj l => !l.isEmpty

/-- Whether the value is a JSON list (`isinstance(result, list)`). -/
def Json.isArr : Json → Bool
  | .arr _ => true
  | _ => false

/-- Whether the value is a JSON object (a Python `dict`). -/
def Json.isObj : Json → Bool
  | .obj _ => true
  | _ => false

/-- Python `str()` of a JSON value, as applied to a row id
(`return str(row_id)`). Row ids are scalars; the rendering of a
container (never produced by the backend for `row_id`) is a fixed
marker string. -/
def Json.pyStr : Json → String
  | .null => "None"
  | .bool b => cond b "True" "False"
  | .num n => toString n
  | .str s => s
  | .arr _ => "unmodelled container repr"
  | .obj _ => "unmodelled container repr"

/-- Lookup in a JSON object's field list with a default
(`d.get(key, default)` when `d` is known to be a dict). -/
def objGet (fields : List (String × Json)) (key : String) (dflt : Json) : Json :=
  match fields.find? (fun p => p.1 = key) with
  | some p => p.2
  | none => dflt

/-- Python `x.get(key, default)`: succeeds on a dict, raises
`AttributeError` on anything else. -/
def pyGet (j : Json) (key : String) (dflt : Json) : Except String Json :=
  match j with
  | .obj fields => .ok (objGet fields key dflt)
  | _ => .error "AttributeError: object has no attribute get"

/-- Remove leading and trailing whitespace characters from a character
list (the behaviour of Python `str.strip()` on its character sequence). -/
def stripChars (l : List Char) : List Char :=
  ((l.dropWhile Char.isWhitespace).reverse.dropWhile Char.isWhitespace).reverse

/-- Python `s.strip()` on a string. -/
def pyStripStr (s : String) : String :=
  ⟨stripChars s.data⟩

/-- Python `x.strip()`: succeeds on a string, raises `AttributeError`
on anything else. -/
def pyStrip (j : Json) : Except String String :=
  match j with
  | .str s => .ok (pyStripStr s)
  | _ => .error "AttributeError: object has no attribute strip"

/-- Python dict assignment `d[k] = v`: overwrite in place if the key is
present, otherwise append. -/
def setKey (m : List (String × Json)) (k : String) (v : Json) : List (String × Json) :=
  match m with
  | [] => [(k, v)]
  | (k₀, v₀) :: rest => if k₀ = k then (k, v) :: rest else (k₀, v₀) :: setKey rest k v

/-- First-match lookup in a dict built with `setKey` (keys are unique
by construction). -/
def dictGet? (d : List (String × Json)) (k : String) : Option Json :=
  (d.find? (fun p => p.1 = k)).map Prod.snd

/-- Python `d.update(m)`: assign every entry of `m` into `d` in order. -/
def dictUpdate (d m : List (String × Json)) : List (String × Json) :=
  m.foldl (fun acc kv => setKey acc kv.1 kv.2) d

/-- Whether an `Except` computation succeeded (no exception raised). -/
def exceptOk {α : Type} : Except String α → Bool
  | .ok _ => true
  | .error _ => false

/-- One iteration of the `for column in columns` loop of
`extract_column_values`: read and strip the name (each step can raise),
skip the entry when the stripped name is empty, otherwise record the
value and OR the truthiness of `is_loading` into the flag. -/
def processColumn (acc : List (String × Json) × Bool) (column : Json) :
    Except String (List (String × Json) × Bool) :=
  match pyGet column "column_name" (.str "") with
  | .error e => .error e
  | .ok rawName =>
    match pyStrip rawName with
    | .error e => .error e
    | .ok columnName =>
      if columnName = "" then .ok acc
      else
        match pyGet column "value" (.str "") with
        | .error e => .error e
        | .ok value =>
          match pyGet column "is_loading" (.bool false) with
          | .error e => .error e
          | .ok flag => .ok (setKey acc.1 columnName value, acc.2 || flag.truthy)

/-- The extractor's loop over the column list, threading the
accumulated `(values, is_still_loading)` pair and propagating any
raised exception. -/
def extractFold : List Json → List (String × Json) × Bool →
    Except String (List (String × Json) × Bool)
  | [], acc => .ok acc
  | column :: rest, acc =>
    match processColumn acc column with
    | .error e => .error e
    | .ok acc₁ => extractFold rest acc₁

/-- `extract_column_values(result)`: a non-list payload yields the empty
columns list (`result if isinstance(result, list) else []`), then the
loop runs over the columns. -/
def extract_column_values (result : Json) :
    Except String (List (String × Json) × Bool) :=
  let columns := match result with
    | .arr l => l
    | _ => []
  extractFold columns ([], false)

example : extract_column_values (.obj [("detail", .str "boom")]) = .ok ([], false) := by rfl

example :
    extract_column_values (.arr
      [ .obj [("column_name", .str " a "), ("value", .str "v"), ("is_loading", .bool false)],
        .obj [("column_name", .str "  "), ("value", .str "w"), ("is_loading", .bool true)],
        .obj [("column_name", .str "b"), ("value", .str "u"), ("is_loading", .bool true)] ]) =
    .ok ([("a", .str "v"), ("b", .str "u")], true) := by rfl

example : exceptOk (extract_column_values (.arr [.str "oops"])) = false := by rfl

/-- A well-formed field descriptor: a name, a value and a pending flag,
as sent by the backend for one column. -/
structure FieldDescriptor where
  name : String
  value : Json
  pending : Bool

/-- The JSON object the backend sends for one field descriptor. -/
def descJson (d : FieldDescriptor) : Json :=
  .obj [("column_name", .str d.name), ("value", d.value), ("is_loading", .bool d.pending)]

/-- Modelled from the spec: a descriptor is included iff its name is
nonempty after trimming. -/
def includedDesc (d : FieldDescriptor) : Bool :=
  decide (pyStripStr d.name ≠ "")

/-- Modelled from the spec: the extracted mapping assigns, for each
included descriptor in order, its trimmed name to its value. -/
def specFields (ds : List FieldDescriptor) : List (String × Json) :=
  (ds.filter includedDesc).foldl (fun m d => setKey m (pyStripStr d.name) d.value) []

/-- Modelled from the spec: the loading flag is the logical OR of the
included descriptors' pending flags. -/
def specIsLoading (ds : List FieldDescriptor) : Bool :=
  (ds.filter includedDesc).any (fun d => d.pending)

theorem processColumn_descJson (acc : List (String × Json) × Bool) (d : FieldDescriptor) :
    processColumn acc (descJson d) =
      if pyStripStr d.name = "" then .ok acc
      else .ok (setKey acc.1 (pyStripStr d.name) d.value, acc.2 || d.pending) := by
  simp [processColumn, descJson, pyGet, objGet, pyStrip, Json.truthy, List.find?]

theorem extractFold_descs (ds : List FieldDescriptor) (acc : List (String × Json) × Bool) :
    extractFold (ds.map descJson) acc =
      .ok ((ds.filter includedDesc).foldl
             (fun m d => setKey m (pyStripStr d.name) d.value) acc.1,
           acc.2 || specIsLoading ds) := by
  induction ds generalizing acc with
  | nil => simp [extractFold, specIsLoading]
  | cons d rest ih =>
    by_cases h : pyStripStr d.name = ""
    · have hinc : includedDesc d = false := by simp [includedDesc, h]
      simp [extractFold, processColumn_descJson, h, hinc, ih, specIsLoading, List.filter_cons]
    · have hinc : includedDesc d = true := by simp [includedDesc, h]
      simp [extractFold, processColumn_descJson, h, hinc, ih, specIsLoading,
        List.filter_cons, Bool.or_assoc]

/-- C7: on a payload that is a sequence of field descriptors, the
extractor trims each name, skips entirely every descriptor whose name is
empty after trimming (no mapping entry, no contribution to the loading
flag), and returns a loading flag equal to the OR of the pending flags
of exactly the included descriptors. -/
theorem c7_descriptor_sequence_extraction (ds : List FieldDescriptor) :
    extract_column_values (.arr (ds.map descJson)) =
      .ok (specFields ds, specIsLoading ds) := by
  simpa [extract_column_values, specFields] using extractFold_descs ds ([], false)

/-- C6: a raw payload that is not a JSON list yields the empty mapping
and a false loading flag, with no error signalled (lenient fallback). -/
theorem c6_nonlist_payload_lenient_fallback (j : Json) (h : j.isArr = false) :
    extract_column_values j = .ok ([], false) := by
  cases j <;> first
    | rfl
    | simp [Json.isArr] at h

theorem c6_witness :
    (Json.obj [("detail", Json.str "some backend error")]).isArr = false ∧
    extract_column_values (Json.obj [("detail", Json.str "some backend error")]) =
      .ok ([], false) :=
  ⟨rfl, c6_nonlist_payload_lenient_fallback (Json.obj [("detail", Json.str "some backend error")]) rfl⟩

theorem extractFold_error_of_nonObj (l : List Json) (acc : List (String × Json) × Bool)
    (h : ∃ e ∈ l, e.isObj = false) :
    exceptOk (extractFold l acc) = false := by
  induction l generalizing acc with
  | nil => simp at h
  | cons c rest ih =>
    rcases h with ⟨e, he, hobj⟩
    rcases List.mem_cons.mp he with rfl | hmem
    · cases e <;> simp [Json.isObj] at hobj <;>
        simp [extractFold, processColumn, pyGet, exceptOk]
    · cases hpc : processColumn acc c with
      | error msg => simp [extractFold, hpc, exceptOk]
      | ok acc₁ => simpa [extractFold, hpc] using ih acc₁ ⟨e, hmem, hobj⟩

/-- C10: the lenient fallback applies only at the top level; a payload
that is a list containing an element that is not a mapping makes the
extractor raise (AttributeError on `.get`) instead of skipping the
element or returning the empty-mapping fallback. -/
theorem c10_nonmapping_element_raises (l : List Json) (h : ∃ e ∈ l, e.isObj = false) :
    exceptOk (extract_column_values (.arr l)) = false :=
  extractFold_error_of_nonObj l ([], false) h

theorem c10_witness : exceptOk (extract_column_values (.arr [.str "oops"])) = false :=
  c10_nonmapping_element_raises [.str "oops"] ⟨.str "oops", by simp, rfl⟩

/-- The server's behaviour on one submission: a transport failure
(`requests` exception), or a parsed JSON response body. -/
inductive SubmitOutcome where
  | transportError (msg : String)
  | response (data : List (String × Json))

/-- The network oracle for one run: the outcome of the i-th submission,
and the raw payload returned when polling a row id in a given round.
Polling transport failures are not modelled (the claims all assume the
retrieval transport succeeds; a transport failure there would abort the
run like any raised exception). -/
structure Env where
  submitOutcome : Nat → SubmitOutcome
  fetch : Nat → String → Json

/-- `submit_company`: raise on transport failure; raise if the response
carries a truthy `error_detail`; raise if `row_id` is missing or falsy;
otherwise return `str(row_id)`. -/
def submit_company (outcome : SubmitOutcome) : Except String String :=
  match outcome with
  | .transportError msg => .error msg
  | .response data =>
    if (objGet data "error_detail" .null).truthy then
      .error "API Error"
    else if (objGet data "row_id" .null).truthy = false then
      .error "No row_id in response"
    else
      .ok (objGet data "row_id" .null).pyStr

/-- Python set update `s.update(ks)`, on a duplicate-free list kept in
insertion order. -/
def pySetAdd (s : List String) (ks : List String) : List String :=
  ks.foldl (fun acc k => if k ∈ acc then acc else acc ++ [k]) s

/-- One stored poll result: `dict(row_id=..., values=...)`. -/
abbrev ResultEntry := String × List (String × Json)

/-- The mutable state of the polling loop: `loading_rows`, `results`
(the list rebuilt each round) and the `all_columns` set. -/
structure LoopState where
  loading : List String
  results : List ResultEntry
  allCols : List String

/-- The accumulator of one polling round:
`(still_loading, updated_results, all_columns)`. -/
abbrev PollAcc := List String × List ResultEntry × List String

/-- One iteration of the `for row_id in loading_rows` loop: fetch,
extract (any raised exception propagates), update `all_columns`, append
the result entry, and append the row id to `still_loading` iff its
extraction reported loading. -/
def pollOne (env : Env) (iter : Nat) (acc : PollAcc) (rid : String) :
    Except String PollAcc :=
  match extract_column_values (env.fetch iter rid) with
  | .error e => .error e
  | .ok (vals, isLoading) =>
    .ok (if isLoading then acc.1 ++ [rid] else acc.1,
         acc.2.1 ++ [(rid, vals)],
         pySetAdd acc.2.2 (vals.map Prod.fst))

/-- The round's loop over the current loading rows. -/
def pollFold (env : Env) (iter : Nat) : List String → PollAcc → Except String PollAcc
  | [], acc => .ok acc
  | rid :: rest, acc =>
    match pollOne env iter acc rid with
    | .error e => .error e
    | .ok acc₁ => pollFold env iter rest acc₁

/-- One polling round: run the loop over `loading_rows` starting from
fresh `still_loading` and `updated_results` accumulators, then set
`results := updated_results` (a wholesale replacement) and
`loading_rows := still_loading`. -/
def pollRound (env : Env) (iter : Nat) (st : LoopState) : Except String LoopState :=
  match pollFold env iter st.loading ([], [], st.allCols) with
  | .error e => .error e
  | .ok acc => .ok ⟨acc.1, acc.2.1, acc.2.2⟩

/-- The loop state after `k` polling rounds: round `k` runs only when
the loading set is still nonempty (the `while loading_rows` condition);
the wall-clock budget of the source's `while` loop is modelled by the
caller bounding the number of rounds. -/
def stateAtRound (env : Env) (st₀ : LoopState) : Nat → Except String LoopState
  | 0 => .ok st₀
  | k + 1 =>
    match stateAtRound env st₀ k with
    | .error e => .error e
    | .ok st => if st.loading.isEmpty then .ok st else pollRound env k st

theorem pySetAdd_mem (s ks : List String) (c : String) :
    c ∈ pySetAdd s ks ↔ c ∈ s ∨ c ∈ ks := by
  induction ks generalizing s with
  | nil => simp [pySetAdd]
  | cons k rest ih =>
    by_cases hk : k ∈ s
    · simp only [pySetAdd, List.foldl_cons, if_pos hk] at *
      rw [ih]
      constructor
      · rintro (h | h)
        · exact Or.inl h
        · exact Or.inr (List.mem_cons_of_mem _ h)
      · rintro (h | h)
        · exact Or.inl h
        · rcases List.mem_cons.mp h with rfl | h
          · exact Or.inl hk
          · exact Or.inr h
    · simp only [pySetAdd, List.foldl_cons, if_neg hk] at *
      rw [ih]
      simp [List.mem_append, List.mem_cons]
      tauto

theorem pollFold_still_mem (env : Env) (iter : Nat) (rids : List String)
    (acc res : PollAcc) (h : pollFold env iter rids acc = .ok res) (rid : String)
    (hmem : rid ∈ res.1) : rid ∈ acc.1 ∨ rid ∈ rids := by
  induction rids generalizing acc with
  | nil =>
    simp [pollFold] at h
    subst h
    exact Or.inl hmem
  | cons r rest ih =>
    simp only [pollFold] at h
    cases hp : pollOne env iter acc r with
    | error e => rw [hp] at h; cases h
    | ok acc₁ =>
      rw [hp] at h
      rcases ih acc₁ h with h₁ | h₁
      · cases hev : extract_column_values (env.fetch iter r) with
        | error e => simp [pollOne, hev] at hp
        | ok p =>
          simp [pollOne, hev] at hp
          subst hp
          by_cases hl : p.2
          · simp [hl] at h₁
            rcases h₁ with h₂ | rfl
            · exact Or.inl h₂
            · exact Or.inr (List.mem_cons_self _ _)
          · simp [hl] at h₁
            exact Or.inl h₁
      · exact Or.inr (List.mem_cons_of_mem _ h₁)

theorem pollRound_loading_sub (env : Env) (iter : Nat) (st st₁ : LoopState)
    (h : pollRound env iter st = .ok st₁) (rid : String) (hmem : rid ∈ st₁.loading) :
    rid ∈ st.loading := by
  cases hf : pollFold env iter st.loading ([], [], st.allCols) with
  | error e => simp [pollRound, hf] at h
  | ok acc =>
    simp [pollRound, hf] at h
    subst h
    rcases pollFold_still_mem env iter st.loading _ _ hf rid hmem with h₁ | h₁
    · simp at h₁
    · exact h₁

theorem stateAtRound_step (env : Env) (st₀ : LoopState) (m : Nat) (st' : LoopState)
    (h : stateAtRound env st₀ (m + 1) = .ok st') :
    ∃ st, stateAtRound env st₀ m = .ok st ∧
      ((st.loading.isEmpty = true ∧ st' = st) ∨
       (st.loading.isEmpty = false ∧ pollRound env m st = .ok st')) := by
  cases hm : stateAtRound env st₀ m with
  | error e => simp [stateAtRound, hm] at h
  | ok st =>
    refine ⟨st, rfl, ?_⟩
    simp only [stateAtRound, hm] at h
    by_cases he : st.loading.isEmpty
    · rw [if_pos he] at h
      exact Or.inl ⟨he, (Except.ok.inj h).symm⟩
    · rw [if_neg he] at h
      exact Or.inr ⟨Bool.not_eq_true _ ▸ eq_false_of_ne_true he, h⟩

theorem stateAtRound_loading_antitone (env : Env) (st₀ : LoopState) (j : Nat)
    (rid : String) :
    ∀ m, j ≤ m → ∀ stj stm, stateAtRound env st₀ j = .ok stj →
      stateAtRound env st₀ m = .ok stm → rid ∉ stj.loading → rid ∉ stm.loading := by
  intro m
  induction m with
  | zero =>
    intro hjm stj stm hj hm hnot
    have hj0 : j = 0 := Nat.le_zero.mp hjm
    subst hj0
    rw [hj] at hm
    rw [← Except.ok.inj hm]
    exact hnot
  | succ m ih =>
    intro hjm stj stm hj hm hnot
    by_cases hj' : j = m + 1
    · subst hj'
      rw [hj] at hm
      rw [← Except.ok.inj hm]
      exact hnot
    · have hjm' : j ≤ m := by omega
      rcases stateAtRound_step env st₀ m stm hm with ⟨st, hst, hcase⟩
      have hnotm : rid ∉ st.loading := ih hjm' stj st hj hst hnot
      rcases hcase with ⟨_, rfl⟩ | ⟨_, hp⟩
      · exact hnotm
      · exact fun hmem => hnotm (pollRound_loading_sub env m st stm hp rid hmem)

/-- C4: a job observed non-loading in round `k` (it was polled in round
`k` and left the loading set) is absent from the loading set of every
later round `m`, hence never polled again (round `m` polls exactly the
round-`m` loading set). -/
theorem c4_resolution_is_permanent (env : Env) (st₀ : LoopState) (k m : Nat)
    (rid : String) (stk stk₁ stm : LoopState)
    (hk : stateAtRound env st₀ k = .ok stk) (hpolled : rid ∈ stk.loading)
    (hk₁ : stateAtRound env st₀ (k + 1) = .ok stk₁) (hleft : rid ∉ stk₁.loading)
    (hkm : k < m) (hm : stateAtRound env st₀ m = .ok stm) :
    rid ∉ stm.loading :=
  stateAtRound_loading_antitone env st₀ (k + 1) rid m hkm stk₁ stm hk₁ hm hleft

theorem pollFold_allCols_mem (env : Env) (iter : Nat) :
    ∀ (rids : List String) (acc res : PollAcc),
      pollFold env iter rids acc = .ok res →
      ∀ c, c ∈ res.2.2 ↔ c ∈ acc.2.2 ∨ ∃ rid ∈ rids, ∃ vals b,
        extract_column_values (env.fetch iter rid) = .ok (vals, b) ∧
          c ∈ vals.map Prod.fst := by
  intro rids
  induction rids with
  | nil =>
    intro acc res h c
    simp [pollFold] at h
    subst h
    simp
  | cons r rest ih =>
    intro acc res h c
    simp only [pollFold] at h
    cases hev : extract_column_values (env.fetch iter r) with
    | error e => simp [pollOne, hev] at h
    | ok p =>
      have hp : pollOne env iter acc r =
          .ok (if p.2 then acc.1 ++ [r] else acc.1,
               acc.2.1 ++ [(r, p.1)], pySetAdd acc.2.2 (p.1.map Prod.fst)) := by
        simp [pollOne, hev]
      rw [hp] at h
      rw [ih _ res h c]
      simp only [pySetAdd_mem, List.mem_cons]
      constructor
      · rintro ((hc | hc) | ⟨rid, hrid, vals, b, hex, hcv⟩)
        · exact Or.inl hc
        · exact Or.inr ⟨r, Or.inl rfl, p.1, p.2, by rw [hev], hc⟩
        · exact Or.inr ⟨rid, Or.inr hrid, vals, b, hex, hcv⟩
      · rintro (hc | ⟨rid, hrid | hrid, vals, b, hex, hcv⟩)
        · exact Or.inl (Or.inl hc)
        · subst hrid
          rw [hev] at hex
          have hv : p.1 = vals ∧ p.2 = b := by
            have h₂ := Except.ok.inj hex
            exact ⟨congrArg Prod.fst h₂, congrArg Prod.snd h₂⟩
          exact Or.inl (Or.inr (hv.1 ▸ hcv))
        · exact Or.inr ⟨rid, hrid, vals, b, hex, hcv⟩

theorem pollRound_allCols_mem (env : Env) (iter : Nat) (st st₁ : LoopState)
    (h : pollRound env iter st = .ok st₁) :
    ∀ c, c ∈ st₁.allCols ↔ c ∈ st.allCols ∨ ∃ rid ∈ st.loading, ∃ vals b,
      extract_column_values (env.fetch iter rid) = .ok (vals, b) ∧
        c ∈ vals.map Prod.fst := by
  intro c
  cases hf : pollFold env iter st.loading ([], [], st.allCols) with
  | error e => simp [pollRound, hf] at h
  | ok acc =>
    simp [pollRound, hf] at h
    subst h
    exact pollFold_allCols_mem env iter st.loading _ acc hf c

theorem stateAtRound_allCols_monotone (env : Env) (st₀ : LoopState) (j : Nat)
    (c : String) :
    ∀ m, j ≤ m → ∀ stj stm, stateAtRound env st₀ j = .ok stj →
      stateAtRound env st₀ m = .ok stm → c ∈ stj.allCols → c ∈ stm.allCols := by
  intro m
  induction m with
  | zero =>
    intro hjm stj stm hj hm hmem
    have hj0 : j = 0 := Nat.le_zero.mp hjm
    subst hj0
    rw [hj] at hm
    rw [← Except.ok.inj hm]
    exact hmem
  | succ m ih =>
    intro hjm stj stm hj hm hmem
    by_cases hj' : j = m + 1
    · subst hj'
      rw [hj] at hm
      rw [← Except.ok.inj hm]
      exact hmem
    · have hjm' : j ≤ m := by omega
      rcases stateAtRound_step env st₀ m stm hm with ⟨st, hst, hcase⟩
      have hmemm : c ∈ st.allCols := ih hjm' stj st hj hst hmem
      rcases hcase with ⟨_, rfl⟩ | ⟨_, hp⟩
      · exact hmemm
      · exact (pollRound_allCols_mem env m st stm hp c).mpr (Or.inl hmemm)

/-- C9: the accumulated set of observed field names is monotonically
non-decreasing across rounds. First conjunct: after each executed round,
the set is exactly its previous value united with the keys extracted in
that round's polls. Second conjunct: a name present at round `k` is
still present at every round `m ≥ k` (no name is ever removed). -/
theorem c9_allcols_monotone_additive (env : Env) (st₀ : LoopState) :
    (∀ k stk stk₁, stateAtRound env st₀ k = .ok stk →
        stk.loading.isEmpty = false →
        stateAtRound env st₀ (k + 1) = .ok stk₁ →
        ∀ c, c ∈ stk₁.allCols ↔ c ∈ stk.allCols ∨ ∃ rid ∈ stk.loading, ∃ vals b,
          extract_column_values (env.fetch k rid) = .ok (vals, b) ∧
            c ∈ vals.map Prod.fst) ∧
    (∀ k m stk stm, k ≤ m → stateAtRound env st₀ k = .ok stk →
        stateAtRound env st₀ m = .ok stm →
        ∀ c, c ∈ stk.allCols → c ∈ stm.allCols) := by
  constructor
  · intro k stk stk₁ hk hne hk₁ c
    rcases stateAtRound_step env st₀ k stk₁ hk₁ with ⟨st, hst, hcase⟩
    rw [hk] at hst
    have hstk : st = stk := (Except.ok.inj hst).symm
    subst hstk
    rcases hcase with ⟨hemp, rfl⟩ | ⟨_, hp⟩
    · rw [hemp] at hne
      cases hne
    · exact pollRound_allCols_mem env k st stk₁ hp c
  · intro k m stk stm hkm hk hm c
    exact stateAtRound_allCols_monotone env st₀ k c m hkm stk stm hk hm

theorem c9_witness :
    ("f1" : String) ∈
      (LoopState.mk [] [("A", [("f1", Json.str "v1")])] ["f1"]).allCols ∧
    ("f1" : String) ∈
      (LoopState.mk [] [("A", [("f1", Json.str "v1")])] ["f1"]).allCols :=
  ⟨((c9_allcols_monotone_additive
      ⟨fun _ => SubmitOutcome.response [("row_id", Json.str "A")],
       fun _ _ => Json.arr [Json.obj
         [("column_name", Json.str "f1"), ("value", Json.str "v1"),
          ("is_loading", Json.bool false)]]⟩
      ⟨["A"], [], []⟩).1 0 ⟨["A"], [], []⟩
      (LoopState.mk [] [("A", [("f1", Json.str "v1")])] ["f1"]) rfl rfl rfl
      "f1").mpr
      (Or.inr ⟨"A", by simp, [("f1", Json.str "v1")], false, rfl, by simp⟩),
   (c9_allcols_monotone_additive
      ⟨fun _ => SubmitOutcome.response [("row_id", Json.str "A")],
       fun _ _ => Json.arr [Json.obj
         [("column_name", Json.str "f1"), ("value", Json.str "v1"),
          ("is_loading", Json.bool false)]]⟩
      ⟨["A"], [], []⟩).2 1 3
      (LoopState.mk [] [("A", [("f1", Json.str "v1")])] ["f1"])
      (LoopState.mk [] [("A", [("f1", Json.str "v1")])] ["f1"])
      (by omega) rfl rfl "f1" (by simp)⟩

theorem c4_witness :
    ("A" : String) ∉
      (LoopState.mk [] [("A", [("f1", Json.str "v1")])] ["f1"]).loading :=
  c4_resolution_is_permanent
    ⟨fun _ => SubmitOutcome.response [("row_id", Json.str "A")],
     fun _ _ => Json.arr [Json.obj
       [("column_name", Json.str "f1"), ("value", Json.str "v1"),
        ("is_loading", Json.bool false)]]⟩
    ⟨["A"], [], []⟩ 0 2 "A"
    ⟨["A"], [], []⟩
    (LoopState.mk [] [("A", [("f1", Json.str "v1")])] ["f1"])
    (LoopState.mk [] [("A", [("f1", Json.str "v1")])] ["f1"])
    rfl (by simp) rfl (by simp) (by omega) rfl

/-- The input table read from the CSV: header columns and rows of
values, each row aligned with the header (pandas default). -/
structure Csv where
  cols : List String
  rows : List (List Json)

/-- Pandas `row[key]` on a row converted to a dict: raises `KeyError`
when the column is absent. -/
def rowGet (d : List (String × Json)) (key : String) : Except String Json :=
  match d.find? (fun p => p.1 = key) with
  | some p => .ok p.2
  | none => .error "KeyError"

/-- The `for index, row in df.iterrows()` submission loop: read the two
required fields of each record (raising `KeyError` if absent), submit
it, and collect the returned row ids in order; any raised exception
aborts the whole loop. -/
def submitGo (env : Env) (cols : List String) : Nat → List (List Json) →
    Except String (List String)
  | _, [] => .ok []
  | i, r :: rest =>
    match rowGet (cols.zip r) "company_name" with
    | .error e => .error e
    | .ok _ =>
      match rowGet (cols.zip r) "website" with
      | .error e => .error e
      | .ok _ =>
        match submit_company (env.submitOutcome i) with
        | .error e => .error e
        | .ok rid =>
          match submitGo env cols (i + 1) rest with
          | .error e => .error e
          | .ok rest₁ => .ok (rid :: rest₁)

/-- The submission phase over the whole input table. -/
def submitPhase (env : Env) (csv : Csv) : Except String (List String) :=
  submitGo env csv.cols 0 csv.rows

/-- One output row: start from the original record's dict; if a stored
result matches the record's row id, update with its values and then set
`row_id`; otherwise (defensively) keep only the original fields. -/
def buildRowData (cols : List String) (vals : List Json) (rid : String)
    (results : List ResultEntry) : List (String × Json) :=
  let rowData := cols.zip vals
  match results.find? (fun r => r.1 = rid) with
  | none => rowData
  | some r => setKey (dictUpdate rowData r.2) "row_id" (.str r.1)

/-- The `final_data` list: one dict per original record, paired with its
submission-order row id. -/
def finalData (csv : Csv) (rowIds : List String) (results : List ResultEntry) :
    List (List (String × Json)) :=
  (csv.rows.zip rowIds).map (fun p => buildRowData csv.cols p.1 p.2 results)

/-- The columns of `pd.DataFrame(final_data)`: the union of the rows'
keys (first-appearance order; only membership matters). -/
def dataCols (rows : List (List (String × Json))) : List String :=
  rows.foldl (fun acc row => pySetAdd acc (row.map Prod.fst)) []

/-- `sorted(list(all_columns - set(original_cols) - set(["row_id"])))`:
the observed field names that are neither original columns nor
`row_id`, in ascending lexicographic order. -/
def apiColsList (cols allCols : List String) : List String :=
  List.insertionSort (· ≤ ·)
    (allCols.filter (fun c => decide (c ∉ cols) && decide (c ≠ "row_id")))

/-- `final_cols = original_cols + ["row_id"] + api_cols`. -/
def finalCols (cols allCols : List String) : List String :=
  cols ++ ["row_id"] ++ apiColsList cols allCols

/-- The written output table: its column names and its rows' cells in
column order (`none` is pandas NaN for a key absent from a row). -/
structure Table where
  cols : List String
  rows : List (List (Option Json))

/-- The projection `final_df = pd.DataFrame(final_data)[final_cols]`
followed by `to_csv`: selecting `final_cols` raises `KeyError` when one
of them is not a column of the DataFrame; otherwise each row is
reindexed by `final_cols`. -/
def projectTable (csv : Csv) (rowIds : List String) (st : LoopState) :
    Except String Table :=
  let fd := finalData csv rowIds st.results
  let fc := finalCols csv.cols st.allCols
  if fc.all (fun c => decide (c ∈ dataCols fd)) then
    .ok ⟨fc, fd.map (fun row => fc.map (fun c => dictGet? row c))⟩
  else .error "KeyError: some final column is not in the DataFrame"

/-- `process_csv`: submit every record, run the polling loop (the
wall-clock budget bounded by a maximum number of rounds), then project
and write the final table. Any raised exception aborts the run with no
output written. -/
def process_csv (env : Env) (csv : Csv) (maxRounds : Nat) : Except String Table :=
  match submitPhase env csv with
  | .error e => .error e
  | .ok rowIds =>
    match stateAtRound env ⟨rowIds, [], []⟩ maxRounds with
    | .error e => .error e
    | .ok st => projectTable csv rowIds st

/-- A two-record run: the server answers submission 0 with row id `A`
and submission 1 with row id `B`; in round 0 job `A` resolves with
field `f1 = v1` while `B` is still loading; in round 1 job `B`
resolves with `f1 = v2`. -/
def envTwo : Env :=
  ⟨fun i => .response [("row_id", Json.str (if i = 0 then "A" else "B"))],
   fun iter rid =>
    if iter = 0 then
      if rid = "A" then
        Json.arr [Json.obj [("column_name", Json.str "f1"),
          ("value", Json.str "v1"), ("is_loading", Json.bool false)]]
      else
        Json.arr [Json.obj [("column_name", Json.str "f1"),
          ("value", Json.str ""), ("is_loading", Json.bool true)]]
    else
      Json.arr [Json.obj [("column_name", Json.str "f1"),
        ("value", Json.str "v2"), ("is_loading", Json.bool false)]]⟩

/-- A two-record input table. -/
def csvTwo : Csv :=
  ⟨["company_name", "website"],
   [[Json.str "Acme", Json.str "acme.com"],
    [Json.str "Beta", Json.str "beta.com"]]⟩

/-- The loop state after the two rounds of the `envTwo` run: the stored
results retain only job `B` (round 1 replaced the results list), while
`all_columns` still remembers `f1`. -/
def stFinalTwo : LoopState :=
  ⟨[], [("B", [("f1", Json.str "v2")])], ["f1"]⟩

/-- The table the `envTwo` run writes: the first record's row has lost
the `f1` value captured in round 0 and carries no row id. -/
def tableTwo : Table :=
  ⟨["company_name", "website", "row_id", "f1"],
   [[some (Json.str "Acme"), some (Json.str "acme.com"), none, none],
    [some (Json.str "Beta"), some (Json.str "beta.com"),
     some (Json.str "B"), some (Json.str "v2")]]⟩

example : submitPhase envTwo csvTwo = .ok ["A", "B"] := by rfl

example : stateAtRound envTwo ⟨["A", "B"], [], []⟩ 5 = .ok stFinalTwo := by rfl

/-- C1 fails on the code: in the `envTwo` run, job `A` resolves in
round 0 with field `f1 = v1`, but round 1 (which polls only `B`)
replaces the stored results wholesale, so `A`'s accumulated fields are
dropped rather than retained; the final row for the first record has no
value under `f1` and no job id. The claim (and the spec's merge policy)
says those fields are still present after later rounds that poll other
jobs. -/
theorem c1_earlier_round_fields_lost :
    process_csv envTwo csvTwo 5 = .ok tableTwo ∧
    stateAtRound envTwo ⟨["A", "B"], [], []⟩ 1 =
      .ok ⟨["B"], [("A", [("f1", Json.str "v1")]), ("B", [("f1", Json.str "")])], ["f1"]⟩ ∧
    stFinalTwo.results.find? (fun r => r.1 = "A") = none := by
  refine ⟨by rfl, by rfl, by rfl⟩

theorem submitGo_length (env : Env) (cols : List String) :
    ∀ (rows : List (List Json)) (i : Nat) (rids : List String),
      submitGo env cols i rows = .ok rids → rids.length = rows.length := by
  intro rows
  induction rows with
  | nil =>
    intro i rids h
    simp [submitGo] at h
    subst h
    rfl
  | cons r rest ih =>
    intro i rids h
    simp only [submitGo] at h
    cases h₁ : rowGet (cols.zip r) "company_name" with
    | error e => rw [h₁] at h; cases h
    | ok j₁ =>
      rw [h₁] at h
      cases h₂ : rowGet (cols.zip r) "website" with
      | error e => rw [h₂] at h; cases h
      | ok j₂ =>
        rw [h₂] at h
        cases h₃ : submit_company (env.submitOutcome i) with
        | error e => rw [h₃] at h; cases h
        | ok rid =>
          rw [h₃] at h
          cases h₄ : submitGo env cols (i + 1) rest with
          | error e => rw [h₄] at h; cases h
          | ok rest₁ =>
            rw [h₄] at h
            rw [← Except.ok.inj h]
            simp [ih (i + 1) rest₁ h₄]

/-- C3 amended: whenever the run writes a final table, that table has
exactly one row per input record. (The unamended claim — that a table
is always written — fails on the empty record set, see the
counterexample.) -/
theorem c3_row_count_when_table_written (env : Env) (csv : Csv) (maxRounds : Nat)
    (t : Table) (h : process_csv env csv maxRounds = .ok t) :
    t.rows.length = csv.rows.length := by
  cases hs : submitPhase env csv with
  | error e => simp [process_csv, hs] at h
  | ok rowIds =>
    cases hst : stateAtRound env ⟨rowIds, [], []⟩ maxRounds with
    | error e => simp [process_csv, hs, hst] at h
    | ok st =>
      simp only [process_csv, hs, hst] at h
      simp only [projectTable] at h
      split at h
      · rw [← Except.ok.inj h]
        have hlen : rowIds.length = csv.rows.length :=
          submitGo_length env csv.cols csv.rows 0 rowIds hs
        simp [finalData, hlen]
      · cases h

/-- An input table with the required header but no records. -/
def csvEmptyRows : Csv := ⟨["company_name", "website"], []⟩

/-- C3 counterexample: on the empty (valid) record set with no network
failures, the run raises a `KeyError` while selecting `final_cols` from
an empty DataFrame and writes no table at all, so the unamended claim
`finalTable.rowCount == inputRecordCount` fails. -/
theorem c3_counterexample_empty_record_set :
    exceptOk (process_csv envTwo csvEmptyRows 5) = false := by rfl

theorem c3_witness : tableTwo.rows.length = csvTwo.rows.length :=
  c3_row_count_when_table_written envTwo csvTwo 5 tableTwo rfl

theorem dictGet?_zip_not_mem (cols : List String) (vals : List Json) (k : String)
    (h : k ∉ cols) : dictGet? (cols.zip vals) k = none := by
  induction cols generalizing vals with
  | nil => rfl
  | cons c cs ih =>
    cases vals with
    | nil => rfl
    | cons v vs =>
      have hk : ¬(c = k) := fun hh => h (hh ▸ List.mem_cons_self c cs)
      have h' : k ∉ cs := fun hm => h (List.mem_cons_of_mem _ hm)
      simp only [List.zip_cons_cons, dictGet?]
      rw [List.find?_cons_of_neg _ (by simpa using hk)]
      exact ih vs h'

theorem map_dictGet?_zip_self : ∀ (cols : List String) (vals : List Json),
    cols.Nodup → vals.length = cols.length →
    cols.map (fun c => dictGet? (cols.zip vals) c) = vals.map some := by
  intro cols
  induction cols with
  | nil =>
    intro vals _ hlen
    cases vals with
    | nil => rfl
    | cons v vs => simp at hlen
  | cons c cs ih =>
    intro vals hnd hlen
    cases vals with
    | nil => simp at hlen
    | cons v vs =>
      have hnotin : c ∉ cs := (List.nodup_cons.mp hnd).1
      have hndcs : cs.Nodup := (List.nodup_cons.mp hnd).2
      have hlen' : vs.length = cs.length := by simpa using hlen
      simp only [List.zip_cons_cons, List.map_cons, List.map_cons]
      congr 1
      · simp only [dictGet?]
        rw [List.find?_cons_of_pos _ (by simp)]
        rfl
      · rw [List.map_congr_left (g := fun c₁ => dictGet? (cs.zip vs) c₁) ?_]
        · exact ih vs hndcs hlen'
        · intro a ha
          have hca : ¬(c = a) := fun hh => hnotin (hh ▸ ha)
          simp only [dictGet?]
          rw [List.find?_cons_of_neg _ (by simpa using hca)]

theorem mem_apiColsList (cols allCols : List String) (c : String) :
    c ∈ apiColsList cols allCols ↔ c ∈ allCols ∧ c ∉ cols ∧ c ≠ "row_id" := by
  unfold apiColsList
  rw [(List.perm_insertionSort _ _).mem_iff]
  simp [List.mem_filter]

/-- C2 amended: a record whose job cannot be found among the stored
results still has its output row, and that row carries exactly the
record's original values under the original columns and `none` (NaN)
under `row_id` and every extra field column. (The unamended claim's
"the run still writes the table, it does not fail" part is refuted by
the counterexample: the write itself can raise.) -/
theorem c2_missing_job_contributes_only_original_fields (csv : Csv)
    (rowIds : List String) (st : LoopState) (i : Nat) (vals : List Json)
    (rid : String) (t : Table)
    (hnd : csv.cols.Nodup) (hrow : "row_id" ∉ csv.cols)
    (hlen : vals.length = csv.cols.length)
    (hi : (csv.rows.zip rowIds)[i]? = some (vals, rid))
    (hmiss : st.results.find? (fun r => r.1 = rid) = none)
    (hproj : projectTable csv rowIds st = .ok t) :
    t.rows[i]? = some (vals.map some ++ [none] ++
      (apiColsList csv.cols st.allCols).map (fun _ => none)) := by
  simp only [projectTable] at hproj
  split at hproj
  · have hbuild : buildRowData csv.cols vals rid st.results = csv.cols.zip vals := by
      simp [buildRowData, hmiss]
    have hfd : (finalData csv rowIds st.results)[i]? = some (csv.cols.zip vals) := by
      simp [finalData, hi, hbuild]
    have hrows : t.rows = (finalData csv rowIds st.results).map
        (fun row => (finalCols csv.cols st.allCols).map (fun c => dictGet? row c)) := by
      rw [← Except.ok.inj hproj]
    rw [hrows, List.getElem?_map, hfd]
    refine congrArg some ?_
    simp only [finalCols, List.map_append]
    congr 1
    · congr 1
      · exact map_dictGet?_zip_self csv.cols vals hnd hlen
      · simp [dictGet?_zip_not_mem csv.cols vals "row_id" hrow]
    · refine List.map_congr_left ?_
      intro a ha
      exact dictGet?_zip_not_mem csv.cols vals a ((mem_apiColsList _ _ a).mp ha).2.1
  · cases hproj

/-- An input table with a single record. -/
def csvOne : Csv := ⟨["company_name", "website"], [[Json.str "Acme", Json.str "acme.com"]]⟩

/-- C2 counterexample: a run (time budget exhausted before any round)
in which the only record's job is not among the stored results; the
claim says the run still writes the full table, but the projection
raises a `KeyError` (`row_id` is not a column of the DataFrame) and the
run fails with no output. -/
theorem c2_counterexample_run_fails :
    exceptOk (process_csv envTwo csvOne 0) = false := by rfl

theorem c2_witness :
    (tableTwo.rows[0]? = some
      ([Json.str "Acme", Json.str "acme.com"].map some ++ [none] ++
        (apiColsList csvTwo.cols stFinalTwo.allCols).map (fun _ => none))) :=
  c2_missing_job_contributes_only_original_fields csvTwo ["A", "B"] stFinalTwo 0
    [Json.str "Acme", Json.str "acme.com"] "A" tableTwo
    (by decide) (by decide) (by decide) rfl rfl rfl

/-- C5: for every run that writes output, the table's column sequence
is the original columns in order, then `row_id`, then the observed
field names that are neither original columns nor `row_id`, sorted
lexicographically ascending. -/
theorem c5_final_column_order (env : Env) (csv : Csv) (maxRounds : Nat)
    (rowIds : List String) (st : LoopState) (t : Table)
    (hsub : submitPhase env csv = .ok rowIds)
    (hst : stateAtRound env ⟨rowIds, [], []⟩ maxRounds = .ok st)
    (ht : process_csv env csv maxRounds = .ok t) :
    t.cols = csv.cols ++ ["row_id"] ++ apiColsList csv.cols st.allCols ∧
    (apiColsList csv.cols st.allCols).Sorted (· ≤ ·) ∧
    ∀ c, c ∈ apiColsList csv.cols st.allCols ↔
      c ∈ st.allCols ∧ c ∉ csv.cols ∧ c ≠ "row_id" := by
  refine ⟨?_, List.sorted_insertionSort _ _, fun c => mem_apiColsList csv.cols st.allCols c⟩
  simp only [process_csv, hsub, hst] at ht
  simp only [projectTable] at ht
  split at ht
  · rw [← Except.ok.inj ht]
    rfl
  · cases ht

theorem c5_witness :
    tableTwo.cols = csvTwo.cols ++ ["row_id"] ++ apiColsList csvTwo.cols stFinalTwo.allCols ∧
    (apiColsList csvTwo.cols stFinalTwo.allCols).Sorted (· ≤ ·) :=
  ⟨(c5_final_column_order envTwo csvTwo 5 ["A", "B"] stFinalTwo tableTwo rfl rfl rfl).1,
   (c5_final_column_order envTwo csvTwo 5 ["A", "B"] stFinalTwo tableTwo rfl rfl rfl).2.1⟩

theorem submitGo_fails (env : Env) (cols : List String) :
    ∀ (rows : List (List Json)) (i₀ i : Nat), i < rows.length →
      exceptOk (submit_company (env.submitOutcome (i₀ + i))) = false →
      exceptOk (submitGo env cols i₀ rows) = false := by
  intro rows
  induction rows with
  | nil =>
    intro i₀ i hi hfail
    simp at hi
  | cons r rest ih =>
    intro i₀ i hi hfail
    simp only [submitGo]
    cases h₁ : rowGet (cols.zip r) "company_name" with
    | error e => simp [exceptOk]
    | ok j₁ =>
      cases h₂ : rowGet (cols.zip r) "website" with
      | error e => simp [exceptOk]
      | ok j₂ =>
        cases h₃ : submit_company (env.submitOutcome i₀) with
        | error e => simp [exceptOk]
        | ok rid =>
          cases i with
          | zero =>
            rw [Nat.add_zero, h₃] at hfail
            simp [exceptOk] at hfail
          | succ i =>
            have hfail' :
                exceptOk (submit_company (env.submitOutcome (i₀ + 1 + i))) = false := by
              rw [show i₀ + 1 + i = i₀ + (i + 1) by omega]
              exact hfail
            have hrec := ih (i₀ + 1) i (by simpa using Nat.lt_of_succ_lt_succ hi) hfail'
            cases h₄ : submitGo env cols (i₀ + 1) rest with
            | error e => simp [exceptOk]
            | ok rest₁ =>
              rw [h₄] at hrec
              simp [exceptOk] at hrec

/-- C8: if the submission of any record fails (transport failure,
application-level error payload, or missing/falsy row id), the whole
run raises and no output table is produced — including when earlier
records were already submitted successfully. -/
theorem c8_submission_failure_aborts (env : Env) (csv : Csv) (maxRounds : Nat)
    (i : Nat) (hi : i < csv.rows.length)
    (hfail : exceptOk (submit_company (env.submitOutcome i)) = false) :
    exceptOk (process_csv env csv maxRounds) = false := by
  have hsub : exceptOk (submitPhase env csv) = false :=
    submitGo_fails env csv.cols csv.rows 0 i hi (by simpa using hfail)
  unfold process_csv
  cases hs : submitPhase env csv with
  | error e => simp [exceptOk]
  | ok rowIds =>
    rw [hs] at hsub
    simp [exceptOk] at hsub

/-- A run whose second submission fails at the transport layer after
the first succeeded (Scenario D). -/
def envFailSecond : Env :=
  ⟨fun i => if i = 0 then .response [("row_id", Json.str "A")]
            else .transportError "connection failed",
   fun _ _ => Json.arr []⟩

theorem c8_witness :
    1 < csvTwo.rows.length ∧
    exceptOk (submit_company (envFailSecond.submitOutcome 1)) = false ∧
    exceptOk (process_csv envFailSecond csvTwo 3) = false :=
  ⟨by decide, rfl,
   c8_submission_failure_aborts envFailSecond csvTwo 3 1 (by decide) rfl⟩
